import Mathlib

/-!
Verification of the spinner (console loader) component of `bn-falcon`,
a shallow embedding of `src/bn_falkon/utils/customization.py`.

The embedding covers:
  * the configuration record built by `BaseLoader.__init__` and its two
    validation guards (invalid position, empty frame sequence);
  * the line rendered by one iteration of `BaseLoader._animate`;
  * the cyclic advancement of the frame index;
  * the erase line and the completion line printed by `BaseLoader.__exit__`;
  * the exception handling wrapped around the animation loop
    (`KeyboardInterrupt` is swallowed silently, any other exception is
    caught and logged);
  * the catalog of frame sequences of the 20 concrete loader subclasses;
  * an interleaving model of the two threads (caller executing
    `__exit__`, animation thread executing `_animate`) precise enough to
    talk about the order of terminal writes around `stop()`.
-/

namespace BnFalkon

/-- Configuration dictionary built by `BaseLoader.__init__`
(`self._config`).  The Python field `end` is called `endText` here
because `end` is a Lean keyword; `timeout` (a Python float) is modelled
as a rational number — no claim depends on its value. -/
structure Config where
  desc : String
  endText : String
  timeout : Rat
  position : String
deriving DecidableEq, Repr

/-- A successfully constructed loader: its configuration together with
the `ANIMATION_STEPS` class attribute of the concrete subclass. -/
structure Loader where
  config : Config
  steps : List String
deriving DecidableEq, Repr

/-- The two `ValueError`s that `BaseLoader.__init__` can raise. -/
inductive ConfigError where
  | invalidPosition (pos : String)
  | emptySteps
deriving DecidableEq, Repr

/-- Constant `BaseLoader.VALID_POSITIONS`. -/
def VALID_POSITIONS : List String := ["front", "end"]

namespace BaseLoader

/-- Embedding of `BaseLoader.__init__`: the position guard runs first
(`if self._config["position"] not in self.VALID_POSITIONS: raise`),
then the empty-frame-sequence guard
(`if not self.ANIMATION_STEPS: raise`).  A raised `ValueError` is
modelled as `Except.error`. -/
def init (steps : List String) (desc endText : String) (timeout : Rat)
    (position : String) : Except ConfigError Loader :=
  if position ∈ VALID_POSITIONS then
    if steps = [] then
      Except.error ConfigError.emptySteps
    else
      Except.ok ⟨⟨desc, endText, timeout, position⟩, steps⟩
  else
    Except.error (ConfigError.invalidPosition position)

end BaseLoader

/-- Frame-index advancement from `_animate`:
`step_count = (step_count + 1) % len(self.ANIMATION_STEPS)`. -/
def advance (n i : Nat) : Nat := (i + 1) % n

/-- Value of `step_count` at the start of iteration `j` of the loop in
`_animate` (the counter starts at `0` and is advanced once per
iteration). -/
def stepAt (n j : Nat) : Nat := (advance n)^[j] 0

/-- Visible text of one redraw, without the leading carriage return:
`prefix + " " + suffix` where
`prefix, suffix = (frame, desc) if position == "front" else (desc, frame)`
(source lines 76–81; the source names are prefix and suffix). -/
def renderBody (l : Loader) (step_count : Nat) : String :=
  let frame := l.steps.getD step_count ""
  let left_part := if l.config.position = "front" then frame else l.config.desc
  let right_part := if l.config.position = "front" then l.config.desc else frame
  left_part ++ " " ++ right_part

/-- Full string written by one iteration of `_animate`
(`print(f"\r{prefix} {suffix}", flush=True, end="")`). -/
def renderLine (l : Loader) (step_count : Nat) : String :=
  "\r" ++ renderBody l step_count

/-- Number of space characters used by the erase write in `__exit__`:
`len(self._config["desc"]) + len(self.ANIMATION_STEPS[0]) + 1`. -/
def eraseWidth (l : Loader) : Nat :=
  l.config.desc.length + (l.steps.getD 0 "").length + 1

/-- The erase write of `__exit__`:
`print("\r" + " " * eraseWidth, end="", flush=True)`. -/
def eraseLine (l : Loader) : String :=
  String.mk ('\r' :: List.replicate (eraseWidth l) ' ')

/-- The completion write of `__exit__`:
`print(f"\r\033[0;32m●  {self._config['end']}\033[0m", flush=True)`.
The source literal has TWO spaces between the marker glyph and the end
text; `print` appends the trailing newline. -/
def completionLine (l : Loader) : String :=
  "\r\x1b[0;32m●  " ++ l.config.endText ++ "\x1b[0m\n"

/-- The two terminal writes performed by `__exit__`, in order. -/
def exitWrites (l : Loader) : List String :=
  [eraseLine l, completionLine l]

/-!
The catalog of concrete loader subclasses (source lines 121–194), each
contributing only its `ANIMATION_STEPS` constant.  `StarsLoader`,
`CircleDigitLoader` and `ArrowLoader` build the list with
`"…".split(' ')`; the split result is written out literally here.
-/

def styleCatalog : List (String × List String) :=
  [ ("SimpleLoader", ["|", "/", "+", "-", "\\"]),
    ("LineLoader", ["⢿", "⣻", "⣽", "⣾", "⣷", "⣯", "⣟", "⡿"]),
    ("GrowthLoader", ["·", "•", "●", "•", "·"]),
    ("CircleLoader", ["◓", "◑", "◒", "◐"]),
    ("PulseLoader", ["•", "○", "•", "·", "●", "·"]),
    ("OOOLoader", ["0", "O", "o", "+", "·"]),
    ("WaitLoader", ["W", "A", "I", "T"]),
    ("RocketLoader", ["|", "/", "^", "-", "\\", "|", "_"]),
    ("StarLoader", ["✶", "✷", "✸", "✹", "✺"]),
    ("StarsLoader",
      ["✩", "✪", "✫", "✬", "✭", "✯", "✰", "★", "✱", "✲", "✳", "✴",
       "✵", "✶", "✷", "✸", "✹", "✺", "✻", "✼", "✽", "✾", "✿", "❀",
       "❁", "❂", "❃", "❄", "❅", "❆", "❇", "❈", "❉", "❊", "❋"]),
    ("CircleDigitLoader", ["➀", "➁", "➂", "➃", "➄", "➅", "➆", "➇", "➈", "➉"]),
    ("HourglassLoader", ["⌛", "⌛", "⌛", "⏳", "⏳", "⏳"]),
    ("ClockLoader", ["⏲", "⌚"]),
    ("ArrowLoader", ["▶", "▷", "►", "▻", "▸", "▹"]),
    ("AtomicLoader", ["☊", "☋", "☌", "☍"]),
    ("DigitLoader", ["0", "1", "2", "3", "4", "5", "6", "7", "8", "9"]),
    ("BounceLoader", ["<• ", "<•>", " •>", " • "]),
    ("DotLoader", ["·", "•", "••", "•••", "••••", "•••", "••", "•"]),
    ("BartLoader",
      ["_", "▁", "▂", "▃", "▄", "▅", "▆", "▇", "█", "▇", "▆", "▅",
       "▄", "▃", "▂", "▁", "_"]) ]

/-- Frame sequence of `DotLoader`, used as a concrete counterexample. -/
def dotSteps : List String := ["·", "•", "••", "•••", "••••", "•••", "••", "•"]

/-- Frame sequence of `SimpleLoader`. -/
def simpleSteps : List String := ["|", "/", "+", "-", "\\"]

/-- Frame sequence of `BounceLoader`. -/
def bounceSteps : List String := ["<• ", "<•>", " •>", " • "]

/-!
Exception handling around the animation loop.  In the source the whole
`while True` loop of `_animate` sits in a `try` block with two handlers:
`except KeyboardInterrupt: pass` and
`except Exception as e: print(f"Animation thread error: {e}")`.
The loop is modelled with explicit fuel (`remaining` — the number of
iterations before the `_done` check observes `True`, finite because
`__exit__` sets the flag) and a fault schedule that can make the body of
any given iteration raise.
-/

/-- Exceptions that can be raised inside the loop body. -/
inductive Fault where
  | keyboardInterrupt
  | other (msg : String)
deriving DecidableEq, Repr

/-- The `while True` loop of `_animate`, without its exception handlers.
Returns the redraw writes emitted so far, paired with the exception (if
any) escaping the loop.  `k` is `step_count`, `iter` counts iterations
from `0` (indexing the fault schedule), and a scheduled fault raises
before that iteration's `print`. -/
def animLoop (l : Loader) (k iter remaining : Nat)
    (fault : Nat → Option Fault) : List String × Option Fault :=
  match remaining with
  | 0 => ([], none)
  | Nat.succ r =>
    match fault iter with
    | some f => ([], some f)
    | none =>
      let res := animLoop l (advance l.steps.length k) (iter + 1) r fault
      (renderLine l k :: res.1, res.2)

/-- Embedding of `_animate` with its `try`/`except` wrapper:
`KeyboardInterrupt` is swallowed (`pass`, no output), any other
exception is caught and logged with
`print(f"Animation thread error: {e}")` (which ends in a newline).  The
return type carries no exception: nothing propagates to the caller. -/
def animate (l : Loader) (remaining : Nat) (fault : Nat → Option Fault) :
    List String :=
  let res := animLoop l 0 0 remaining fault
  match res.2 with
  | none => res.1
  | some Fault.keyboardInterrupt => res.1
  | some (Fault.other msg) => res.1 ++ ["Animation thread error: " ++ msg ++ "\n"]

/-- Fault schedule raising `f` in iteration `j` and nowhere else. -/
def injectAt (j : Nat) (f : Fault) : Nat → Option Fault :=
  fun i => if i = j then some f else none

/-!
Interleaving model of the stop protocol.  Two threads share the boolean
`_done`, protected by a lock whose critical sections each perform a
single read or write of the flag, so flag accesses are modelled as
atomic transitions.  The animation thread runs the loop of `_animate`
(check flag / print frame / sleep / advance index); the caller runs the
body of `__exit__` (set flag / erase write / completion write / join).
The join transition is enabled only once the animation thread has
exited, exactly as `self._thread.join()` behaves; note that in the
source the join comes AFTER both prints of `__exit__`.
-/

/-- Program counter of the animation thread inside `_animate`. -/
inductive AnimPc where
  | check
  | emit
  | pause
  | bump
  | exited
deriving DecidableEq, Repr

/-- Program counter of the caller inside `__exit__`. -/
inductive MainPc where
  | setDone
  | eraseStep
  | completionStep
  | joinStep
  | returned
deriving DecidableEq, Repr

/-- One terminal write, as recorded in the output trace. -/
inductive Write where
  | frame (k : Nat)
  | eraseW
  | completionW
deriving DecidableEq, Repr

/-- Global state of the two threads: the shared flag, both program
counters, the animation thread's `step_count`, and the trace of
terminal writes so far. -/
structure Sys where
  done : Bool
  animPc : AnimPc
  stepCount : Nat
  mainPc : MainPc
  output : List Write
deriving DecidableEq, Repr

/-- Small-step interleaving semantics; `n` is
`len(self.ANIMATION_STEPS)`.  Animation-thread transitions follow the
loop body of `_animate` line by line; caller transitions follow
`__exit__` line by line. -/
inductive Step (n : Nat) : Sys → Sys → Prop where
  | checkStop (k : Nat) (m : MainPc) (out : List Write) :
      Step n ⟨true, AnimPc.check, k, m, out⟩ ⟨true, AnimPc.exited, k, m, out⟩
  | checkGo (k : Nat) (m : MainPc) (out : List Write) :
      Step n ⟨false, AnimPc.check, k, m, out⟩ ⟨false, AnimPc.emit, k, m, out⟩
  | emitFrame (d : Bool) (k : Nat) (m : MainPc) (out : List Write) :
      Step n ⟨d, AnimPc.emit, k, m, out⟩
        ⟨d, AnimPc.pause, k, m, out ++ [Write.frame k]⟩
  | sleepElapse (d : Bool) (k : Nat) (m : MainPc) (out : List Write) :
      Step n ⟨d, AnimPc.pause, k, m, out⟩ ⟨d, AnimPc.bump, k, m, out⟩
  | bumpIndex (d : Bool) (k : Nat) (m : MainPc) (out : List Write) :
      Step n ⟨d, AnimPc.bump, k, m, out⟩
        ⟨d, AnimPc.check, (k + 1) % n, m, out⟩
  | mainSetDone (d : Bool) (a : AnimPc) (k : Nat) (out : List Write) :
      Step n ⟨d, a, k, MainPc.setDone, out⟩ ⟨true, a, k, MainPc.eraseStep, out⟩
  | mainErase (d : Bool) (a : AnimPc) (k : Nat) (out : List Write) :
      Step n ⟨d, a, k, MainPc.eraseStep, out⟩
        ⟨d, a, k, MainPc.completionStep, out ++ [Write.eraseW]⟩
  | mainCompletion (d : Bool) (a : AnimPc) (k : Nat) (out : List Write) :
      Step n ⟨d, a, k, MainPc.completionStep, out⟩
        ⟨d, a, k, MainPc.joinStep, out ++ [Write.completionW]⟩
  | mainJoin (d : Bool) (k : Nat) (out : List Write) :
      Step n ⟨d, AnimPc.exited, k, MainPc.joinStep, out⟩
        ⟨d, AnimPc.exited, k, MainPc.returned, out⟩

/-- State at the moment `__exit__` is entered while the animation loop
sits at the top of an iteration. -/
def stopInit : Sys := ⟨false, AnimPc.check, 0, MainPc.setDone, []⟩

/-- States reachable from `stopInit` by interleaving the two threads. -/
def Reach (n : Nat) (s : Sys) : Prop :=
  Relation.ReflTransGen (Step n) stopInit s

/-- The trace contains a frame (redraw) write strictly after a
completion-line write. -/
def frameAfterCompletion (out : List Write) : Prop :=
  ∃ i j, i < j ∧ out.get? i = some Write.completionW ∧
    ∃ k, out.get? j = some (Write.frame k)

/-- A state with no outgoing transition at all: in particular, no
thread can write anything further. -/
def Quiescent (n : Nat) (s : Sys) : Prop :=
  ∀ t, ¬ Step n s t

/-- A `SimpleLoader` built with all default arguments
(`desc="Loading..."`, `end="Done!"`, `timeout=0.1`, `position="front"`). -/
def frontLoader : Loader :=
  ⟨⟨"Loading...", "Done!", 1/10, "front"⟩, simpleSteps⟩

/-- A `SimpleLoader` with default arguments except `position="end"`. -/
def endLoader : Loader :=
  ⟨⟨"Loading...", "Done!", 1/10, "end"⟩, simpleSteps⟩

/-- A `DotLoader` built with all default arguments. -/
def dotLoader : Loader :=
  ⟨⟨"Loading...", "Done!", 1/10, "front"⟩, dotSteps⟩

/-- Concrete interleaving of `__exit__` with the animation thread (for
`n = 5`, the `SimpleLoader` frame count): the animation thread passes
its `_done` check, the caller then sets the flag and performs both of
its writes, and only afterwards does the animation thread's pending
`print` land — a frame write AFTER the completion line. -/
def sysLate : Sys :=
  ⟨true, AnimPc.pause, 0, MainPc.joinStep,
    [Write.eraseW, Write.completionW, Write.frame 0]⟩

/-- The same interleaving continued to the end: the animation thread
finishes its iteration, observes the flag and exits, and the caller's
`join` returns. -/
def sysFinal : Sys :=
  ⟨true, AnimPc.exited, 1, MainPc.returned,
    [Write.eraseW, Write.completionW, Write.frame 0]⟩

/-!
Theorems.
-/

/-- C2: for every value of `position` outside `VALID_POSITIONS`,
construction raises the position `ValueError`, whatever the other
arguments (including an empty frame sequence, since the position guard
runs first). -/
theorem init_invalid_position_errors (steps : List String)
    (desc endText : String) (timeout : Rat) (position : String)
    (h : position ∉ VALID_POSITIONS) :
    BaseLoader.init steps desc endText timeout position =
      Except.error (ConfigError.invalidPosition position) := by
  simp [BaseLoader.init, h]

theorem init_invalid_position_errors_witness :
    "middle" ∉ VALID_POSITIONS ∧
      BaseLoader.init simpleSteps "Loading..." "Done!" (1/10) "middle" =
        Except.error (ConfigError.invalidPosition "middle") :=
  ⟨by decide,
   init_invalid_position_errors simpleSteps "Loading..." "Done!" (1/10)
     "middle" (by decide)⟩

/-- C3: construction with an empty frame sequence always raises a
`ValueError` — it never succeeds, for any other arguments (the error is
the position one when the position is also invalid, the
empty-`ANIMATION_STEPS` one otherwise). -/
theorem init_empty_steps_errors (desc endText : String) (timeout : Rat)
    (position : String) :
    ∃ e, BaseLoader.init [] desc endText timeout position = Except.error e := by
  by_cases h : position ∈ VALID_POSITIONS
  · exact ⟨ConfigError.emptySteps, by simp [BaseLoader.init, h]⟩
  · exact ⟨ConfigError.invalidPosition position, by simp [BaseLoader.init, h]⟩

/-- C4: the string written by one redraw iteration is the carriage
return followed by `"<frame> <label>"` when the position is `"front"`
and by `"<label> <frame>"` when it is `"end"`, where the frame is the
current element of the frame sequence. -/
theorem renderLine_positions (l : Loader) (step_count : Nat) :
    (l.config.position = "front" →
      renderLine l step_count =
        "\r" ++ l.steps.getD step_count "" ++ " " ++ l.config.desc) ∧
    (l.config.position = "end" →
      renderLine l step_count =
        "\r" ++ l.config.desc ++ " " ++ l.steps.getD step_count "") := by
  constructor <;> intro h <;>
    simp [renderLine, renderBody, h, String.append_assoc]

theorem renderLine_positions_witness :
    renderLine frontLoader 2 =
      "\r" ++ frontLoader.steps.getD 2 "" ++ " " ++ frontLoader.config.desc ∧
    renderLine endLoader 2 =
      "\r" ++ endLoader.config.desc ++ " " ++ endLoader.steps.getD 2 "" :=
  ⟨(renderLine_positions frontLoader 2).1 rfl,
   (renderLine_positions endLoader 2).2 rfl⟩

/-- Iterating the frame-advancement map: starting below `n`, after `k`
steps the index is `(i + k) % n`. -/
theorem advance_iterate (n : Nat) (k i : Nat) (h : i < n) :
    (advance n)^[k] i = (i + k) % n := by
  induction k generalizing i with
  | zero => simpa using (Nat.mod_eq_of_lt h).symm
  | succ k ih =>
    have hn : 0 < n := Nat.lt_of_le_of_lt (Nat.zero_le i) h
    have h1 : advance n i < n := Nat.mod_lt _ hn
    rw [Function.iterate_succ_apply, ih (advance n i) h1]
    unfold advance
    rw [Nat.mod_add_mod]
    have h2 : i + 1 + k = i + (k + 1) := by omega
    rw [h2]

/-- C5: each iteration maps the frame index `i` to `(i + 1) % n`, and
this advancement is cyclic — from any in-range starting index, `n`
advancement steps return to the start. -/
theorem advance_cycle (n i : Nat) (h : i < n) :
    advance n i = (i + 1) % n ∧ (advance n)^[n] i = i := by
  refine ⟨rfl, ?_⟩
  rw [advance_iterate n n i h, Nat.add_mod_right, Nat.mod_eq_of_lt h]

theorem advance_cycle_witness :
    1 < 4 ∧ (advance 4 1 = (1 + 1) % 4 ∧ (advance 4)^[4] 1 = 1) :=
  ⟨by decide, advance_cycle 4 1 (by decide)⟩

/-- C10: for a loader whose construction succeeded, the loop index
`step_count` stays strictly below the frame-sequence length at every
iteration, and the length is positive (so `ANIMATION_STEPS[step_count]`
in the loop and `ANIMATION_STEPS[0]` in `__exit__` are both in
bounds). -/
theorem animation_indices_in_bounds (steps : List String)
    (desc endText : String) (timeout : Rat) (position : String) (l : Loader)
    (h : BaseLoader.init steps desc endText timeout position = Except.ok l)
    (j : Nat) :
    stepAt l.steps.length j < l.steps.length ∧ 0 < l.steps.length := by
  have hlen : 0 < l.steps.length := by
    unfold BaseLoader.init at h
    by_cases hp : position ∈ VALID_POSITIONS
    · rw [if_pos hp] at h
      by_cases hs : steps = []
      · rw [if_pos hs] at h; exact absurd h (by simp)
      · rw [if_neg hs] at h
        injection h with h2
        rw [← h2]
        exact List.length_pos.mpr hs
    · rw [if_neg hp] at h; exact absurd h (by simp)
  refine ⟨?_, hlen⟩
  unfold stepAt
  rw [advance_iterate _ j 0 hlen]
  exact Nat.mod_lt _ hlen

theorem animation_indices_in_bounds_witness :
    stepAt frontLoader.steps.length 7 < frontLoader.steps.length ∧
      0 < frontLoader.steps.length :=
  animation_indices_in_bounds simpleSteps "Loading..." "Done!" (1/10)
    "front" frontLoader rfl 7

/-- C6 counterexample: with the default completion text the completion
write is `"\r\x1b[0;32m●␣␣Done!\x1b[0m\n"` — the source literal puts TWO
spaces between the marker and the text, so the visible line is
`"●  Done!"`, not `"● Done!"` (marker, single space, text) as
claimed. -/
theorem completionLine_not_single_space :
    completionLine frontLoader = "\r\x1b[0;32m●  Done!\x1b[0m\n" ∧
    completionLine frontLoader ≠ "\r\x1b[0;32m● Done!\x1b[0m\n" :=
  ⟨rfl, by decide⟩

/-- C6 amended: `__exit__` performs exactly one newline-terminated
write (the erase write contains no newline), and that write is the
carriage return, the green escape, the marker glyph, TWO spaces, the
configured completion text, the reset escape, and the trailing
newline. -/
theorem completionLine_form (l : Loader) :
    (exitWrites l).countP (fun s => decide ('\n' ∈ s.data)) = 1 ∧
    completionLine l = "\r\x1b[0;32m●  " ++ l.config.endText ++ "\x1b[0m\n" := by
  refine ⟨?_, rfl⟩
  have h1 : ('\n' ∈ (eraseLine l).data) = False := by
    simp only [eraseLine, eq_iff_iff, iff_false]
    intro hmem
    rcases List.mem_cons.mp hmem with h | h
    · exact absurd h (by decide)
    · exact absurd (List.eq_of_mem_replicate h) (by decide)
  have h2 : ('\n' ∈ (completionLine l).data) = True := by
    simp only [eq_iff_iff, iff_true]
    show '\n' ∈ ("\r\x1b[0;32m●  ").data ++ (l.config.endText.data ++ ("\x1b[0m\n").data)
    refine List.mem_append.mpr (Or.inr (List.mem_append.mpr (Or.inr ?_)))
    decide
  simp [exitWrites, List.countP_cons, h1, h2]

/-- C7 counterexample: for a `DotLoader` with default arguments, the
frame at index 4 is `"••••"` (four characters) while the first frame is
`"·"` (one character), so the line drawn at index 4 is 15 characters
long but the erase write only covers 12 characters — the claimed width
does not suffice to erase every previously drawn line. -/
theorem eraseWidth_insufficient :
    BaseLoader.init dotSteps "Loading..." "Done!" (1/10) "front" =
      Except.ok dotLoader ∧
    4 < dotLoader.steps.length ∧
    eraseWidth dotLoader < (renderBody dotLoader 4).length :=
  ⟨rfl, by decide, by decide⟩

/-- C7 amended: the erase write consists of a carriage return followed
by exactly `len(desc) + len(first frame) + 1` spaces, and this width
suffices to erase the line drawn at index `k` whenever that frame is no
longer than the first frame (in particular for all styles whose frames
all have the same length); it can under-erase otherwise. -/
theorem eraseWidth_formula (l : Loader) (k : Nat)
    (h : (l.steps.getD k "").length ≤ (l.steps.getD 0 "").length) :
    eraseLine l = String.mk ('\r' :: List.replicate
      (l.config.desc.length + (l.steps.getD 0 "").length + 1) ' ') ∧
    (renderBody l k).length ≤ eraseWidth l := by
  refine ⟨rfl, ?_⟩
  unfold renderBody eraseWidth
  by_cases hp : l.config.position = "front" <;>
    simp [hp, String.length_append,
      show (" " : String).length = 1 from rfl] at h ⊢ <;>
    omega

theorem eraseWidth_formula_witness :
    ((frontLoader.steps.getD 3 "").length ≤
        (frontLoader.steps.getD 0 "").length) ∧
    (eraseLine frontLoader = String.mk ('\r' :: List.replicate
        (frontLoader.config.desc.length +
          (frontLoader.steps.getD 0 "").length + 1) ' ') ∧
      (renderBody frontLoader 3).length ≤ eraseWidth frontLoader) :=
  ⟨by decide, eraseWidth_formula frontLoader 3 (by decide)⟩

/-- C9 counterexample: `BounceLoader` is a configured style whose frame
`"<•>"` is three characters, not a single display glyph (the same holds
for `DotLoader`'s `"••••"`). -/
theorem bounce_frame_not_single_glyph :
    ("BounceLoader", bounceSteps) ∈ styleCatalog ∧
    "<•>" ∈ bounceSteps ∧ ("<•>" : String).length = 3 :=
  ⟨by decide, by decide, by decide⟩

/-- C9 amended: every configured style's frame sequence is non-empty,
and every frame is a single display glyph except in `BounceLoader` and
`DotLoader`, whose frames are multi-character strings. -/
theorem catalog_glyphs :
    styleCatalog.all (fun p =>
      !p.2.isEmpty &&
      p.2.all (fun f =>
        f.length == 1 || p.1 == "BounceLoader" || p.1 == "DotLoader")) = true := by
  decide

/-- Behaviour of the raw loop under a single scheduled fault: starting
at absolute iteration `s` with index `s % n`, a fault scheduled `j`
iterations later (within the fuel) stops the loop right there, with
exactly the `j` intervening redraw writes emitted and the exception
escaping to the handlers. -/
theorem animLoop_injectAt (l : Loader) (f : Fault) (j : Nat) :
    ∀ s r : Nat, j < r →
      animLoop l (s % l.steps.length) s r (injectAt (s + j) f) =
        ((List.range j).map
          (fun t => renderLine l ((s + t) % l.steps.length)), some f) := by
  induction j with
  | zero =>
    intro s r hr
    obtain ⟨r2, rfl⟩ : ∃ r2, r = r2 + 1 := ⟨r - 1, by omega⟩
    simp [animLoop, injectAt]
  | succ j ih =>
    intro s r hr
    obtain ⟨r2, rfl⟩ : ∃ r2, r = r2 + 1 := ⟨r - 1, by omega⟩
    have hfire : injectAt (s + (j + 1)) f s = none := by
      unfold injectAt
      rw [if_neg (by omega)]
    have hadv : advance l.steps.length (s % l.steps.length) =
        (s + 1) % l.steps.length := by
      unfold advance
      rw [Nat.mod_add_mod]
    have hsched : injectAt (s + (j + 1)) f = injectAt ((s + 1) + j) f := by
      have h3 : s + (j + 1) = (s + 1) + j := by omega
      rw [h3]
    have hrec := ih (s + 1) r2 (by omega)
    simp only [animLoop, hfire, hadv, hsched, hrec,
      List.range_succ_eq_map, List.map_cons, List.map_map]
    refine congrArg (fun x => (x, some f)) ?_
    refine congrArg₂ List.cons ?_ ?_
    · rw [Nat.add_zero]
    · apply List.map_congr_left
      intro t _
      simp only [Function.comp_apply]
      have h4 : s + (t + 1) = s + 1 + t := by omega
      rw [h4]

/-- C8: no exception escapes the background loop.  With a
`KeyboardInterrupt` scheduled at iteration `j`, `_animate` returns
normally having written exactly the `j` redraws that preceded it and
nothing else (silent exit, no error output); with any other exception,
it returns normally after writing those redraws followed by exactly the
one logged `"Animation thread error: …"` line.  In both cases the
result is an ordinary write list — nothing propagates to the caller. -/
theorem animate_never_propagates (l : Loader) (r j : Nat) (f : Fault)
    (h : j < r) :
    animate l r (injectAt j f) =
      (List.range j).map (fun t => renderLine l (t % l.steps.length)) ++
      (match f with
       | Fault.keyboardInterrupt => []
       | Fault.other msg => ["Animation thread error: " ++ msg ++ "\n"]) := by
  have hl := animLoop_injectAt l f j 0 r h
  rw [Nat.zero_mod] at hl
  have hz : injectAt (0 + j) f = injectAt j f := by rw [Nat.zero_add]
  rw [hz] at hl
  unfold animate
  rw [hl]
  cases f <;> simp

theorem animate_never_propagates_witness :
    1 < 3 ∧
    animate frontLoader 3 (injectAt 1 (Fault.other "boom")) =
      (List.range 1).map
        (fun t => renderLine frontLoader (t % frontLoader.steps.length)) ++
      ["Animation thread error: " ++ "boom" ++ "\n"] :=
  ⟨by decide,
   animate_never_propagates frontLoader 3 1 (Fault.other "boom") (by decide)⟩

/-- C1 counterexample: an interleaving in which the completion line is
printed and only afterwards the animation thread's pending redraw
lands.  The trace reaches a state whose output is erase write,
completion write, then a frame write — a redraw IS emitted after the
completion line, because `__exit__` joins the thread only after its two
prints. -/
theorem late_frame_after_completion :
    Reach 5 sysLate ∧ frameAfterCompletion sysLate.output := by
  constructor
  · exact Relation.ReflTransGen.head (Step.checkGo 0 MainPc.setDone [])
      (Relation.ReflTransGen.head (Step.mainSetDone false AnimPc.emit 0 [])
      (Relation.ReflTransGen.head (Step.mainErase true AnimPc.emit 0 [])
      (Relation.ReflTransGen.head
        (Step.mainCompletion true AnimPc.emit 0 [Write.eraseW])
      (Relation.ReflTransGen.head
        (Step.emitFrame true 0 MainPc.joinStep [Write.eraseW, Write.completionW])
      Relation.ReflTransGen.refl))))
  · exact ⟨1, 2, by decide, rfl, 0, rfl⟩

/-- Invariant of the stop protocol: the caller can only be past its
`join` once the animation thread has exited, because the `join`
transition is enabled only in that case. -/
theorem reach_returned_exited (n : Nat) (s : Sys) (h : Reach n s) :
    s.mainPc = MainPc.returned → s.animPc = AnimPc.exited := by
  induction h with
  | refl => decide
  | tail hab hbc ih => cases hbc <;> simp_all

/-- C1 amended: after `stop()` returns — that is, in every reachable
state where the caller has completed the `join` — the animation thread
has exited and the whole system is quiescent: no transition (in
particular no terminal write by either thread) is possible.  The
original claim's stronger clause, that no redraw is emitted after the
completion line is printed, fails (see the counterexample): the join
happens only after both prints of `__exit__`. -/
theorem stop_returned_quiescent (n : Nat) (s : Sys) (h : Reach n s)
    (hret : s.mainPc = MainPc.returned) :
    s.animPc = AnimPc.exited ∧ Quiescent n s := by
  have hex := reach_returned_exited n s h hret
  refine ⟨hex, ?_⟩
  intro t hstep
  obtain ⟨d, a, k, m, out⟩ := s
  cases hstep <;> simp_all

theorem stop_returned_quiescent_witness :
    sysFinal.animPc = AnimPc.exited ∧ Quiescent 5 sysFinal :=
  stop_returned_quiescent 5 sysFinal
    (Relation.ReflTransGen.head (Step.checkGo 0 MainPc.setDone [])
      (Relation.ReflTransGen.head (Step.mainSetDone false AnimPc.emit 0 [])
      (Relation.ReflTransGen.head (Step.mainErase true AnimPc.emit 0 [])
      (Relation.ReflTransGen.head
        (Step.mainCompletion true AnimPc.emit 0 [Write.eraseW])
      (Relation.ReflTransGen.head
        (Step.emitFrame true 0 MainPc.joinStep [Write.eraseW, Write.completionW])
      (Relation.ReflTransGen.head (Step.sleepElapse true 0 MainPc.joinStep
        [Write.eraseW, Write.completionW, Write.frame 0])
      (Relation.ReflTransGen.head (Step.bumpIndex true 0 MainPc.joinStep
        [Write.eraseW, Write.completionW, Write.frame 0])
      (Relation.ReflTransGen.head (Step.checkStop 1 MainPc.joinStep
        [Write.eraseW, Write.completionW, Write.frame 0])
      (Relation.ReflTransGen.head (Step.mainJoin true 1
        [Write.eraseW, Write.completionW, Write.frame 0])
      Relation.ReflTransGen.refl))))))))) rfl

end BnFalkon
